/- Verification of the WorkSphere booking core: a shallow embedding of the
   enhanced booking service (validateBooking, getBookings, isSlotAvailable,
   saveBooking, deleteBooking, clearAllBookings) and of the JavaScript date
   semantics it relies on, together with theorems settling the specification
   claims about slot uniqueness, availability, atomicity, validation and
   defensive deserialization. -/
import Mathlib

namespace WorkSphere

/-- A booking record, following the `Booking` interface of the source types:
`id?: string`, `roomId: number`, `date: string`, `time: string`,
`duration?: number`, `bookedBy?: string`, `createdAt?: Date`.  The creation
timestamp is abstracted to an instant (minutes since the epoch); no claim
inspects its representation. -/
structure Booking where
  id : Option String
  roomId : Int
  date : String
  time : String
  duration : Option Int
  bookedBy : Option String
  createdAt : Option Int
deriving DecidableEq

/-- The `BookingValidationResult` interface: a validity flag plus the ordered
list of human-readable error strings. -/
structure BookingValidationResult where
  isValid : Bool
  errors : List String
deriving DecidableEq

/-- Host environment of a call: the current local calendar day (days since
1970-01-01) and the local timezone offset in minutes east of UTC.  `new
Date(); today.setHours(0,0,0,0)` yields the local-midnight instant derived
from these. -/
structure Env where
  todayDay : Int
  tzOffset : Int
deriving DecidableEq

/-- UTC instant (minutes since the epoch) of today's local midnight, the
value of `today` after `today.setHours(0, 0, 0, 0)` in the source. -/
def Env.todayMidnight (e : Env) : Int := 1440 * e.todayDay - e.tzOffset

/-- Gregorian leap-year test. -/
def isLeapYear (y : Nat) : Bool :=
  y % 4 = 0 && (y % 100 ≠ 0 || y % 400 = 0)

/-- Number of days in a month of the proleptic Gregorian calendar. -/
def daysInMonth (y m : Nat) : Nat :=
  if m = 2 then (if isLeapYear y then 29 else 28)
  else if m = 4 ∨ m = 6 ∨ m = 9 ∨ m = 11 then 30
  else 31

/-- Days from 0400-03-01-based internal epoch to the civil date y-m-d
(years shifted by 400 so all intermediate values stay in `Nat`). -/
def civilToDaysNat (y m d : Nat) : Nat :=
  let yy := y + 400
  let yy := if m ≤ 2 then yy - 1 else yy
  let era := yy / 400
  let yoe := yy % 400
  let mp := (m + 9) % 12
  let doy := (153 * mp + 2) / 5 + (d - 1)
  let doe := yoe * 365 + yoe / 4 - yoe / 100 + doy
  era * 146097 + doe

/-- Days since 1970-01-01 of the civil date y-m-d. -/
def dayNumber (y m d : Nat) : Int :=
  (civilToDaysNat y m d : Int) - (civilToDaysNat 1970 1 1 : Int)

/-- Numeric value of a decimal digit character, `none` otherwise. -/
def digitVal (c : Char) : Option Nat :=
  if c.isDigit then some (c.toNat - 48) else none

/-- Two-digit decimal number from two characters. -/
def num2 (a b : Char) : Option Nat := do
  let x ← digitVal a
  let y ← digitVal b
  pure (10 * x + y)

/-- Four-digit decimal number from four characters. -/
def num4 (a b c d : Char) : Option Nat := do
  let x ← digitVal a
  let y ← digitVal b
  let z ← digitVal c
  let w ← digitVal d
  pure (1000 * x + 100 * y + 10 * z + w)

/-- In-range check for a civil date as required by the ECMAScript Date Time
String Format (out-of-bounds components make the string unrecognizable). -/
def validYMD (y m d : Nat) : Bool :=
  1 ≤ m && m ≤ 12 && 1 ≤ d && d ≤ daysInMonth y m

/-- Models `new Date(string)` restricted to the ECMAScript Date Time String
Format forms actually exercised by this code base: `YYYY`, `YYYY-MM`,
`YYYY-MM-DD` (date-only forms denote UTC midnight) and
`YYYY-MM-DDTHH:MM` (a date-time form without offset denotes local time).
Any other string — including implementation-defined fallback formats,
explicit offsets and fractional seconds — is modelled as an unrecognizable
string, i.e. an Invalid Date (`none`, the NaN time value). The result is
the UTC instant in minutes since the epoch. -/
def jsDateParse (tzOffset : Int) (s : String) : Option Int :=
  match s.toList with
  | [a, b, c, d] => do
      let y ← num4 a b c d
      pure (1440 * dayNumber y 1 1)
  | [a, b, c, d, '-', e, f] => do
      let y ← num4 a b c d
      let m ← num2 e f
      if 1 ≤ m && m ≤ 12 then pure (1440 * dayNumber y m 1) else none
  | [a, b, c, d, '-', e, f, '-', g, h] => do
      let y ← num4 a b c d
      let m ← num2 e f
      let dd ← num2 g h
      if validYMD y m dd then pure (1440 * dayNumber y m dd) else none
  | [a, b, c, d, '-', e, f, '-', g, h, 'T', i, j, ':', k, l] => do
      let y ← num4 a b c d
      let m ← num2 e f
      let dd ← num2 g h
      let hh ← num2 i j
      let mi ← num2 k l
      if validYMD y m dd && hh ≤ 23 && mi ≤ 59 then
        pure (1440 * dayNumber y m dd + (60 * hh + mi : Nat) - tzOffset)
      else none
  | _ => none

/-- The regular pattern of `validateBooking` for dates: ten characters
digit digit digit digit dash digit digit dash digit digit. -/
def datePattern (s : String) : Bool :=
  match s.toList with
  | [a, b, c, d, '-', e, f, '-', g, h] =>
      a.isDigit && b.isDigit && c.isDigit && d.isDigit &&
      e.isDigit && f.isDigit && g.isDigit && h.isDigit
  | _ => false

/-- The regular pattern of `validateBooking` for times: digit digit colon
digit digit. -/
def timePattern (s : String) : Bool :=
  match s.toList with
  | [a, b, ':', c, d] => a.isDigit && b.isDigit && c.isDigit && d.isDigit
  | _ => false

/-- Error text pushed when the room id check fails. -/
def roomIdError : String := "Room ID must be a positive number"

/-- Error text pushed when the date format check fails. -/
def dateFormatError : String := "Date must be in YYYY-MM-DD format"

/-- Error text pushed when the time format check fails. -/
def timeFormatError : String := "Time must be in HH:MM format"

/-- Error text pushed when the past-date check fails. -/
def pastDateError : String := "Cannot book dates in the past"

/-- The `validateBooking` function of the booking service: collects, in
order, the room-id error (`!booking.roomId || booking.roomId <= 0`), the
date-format error, the time-format error, and the past-date error.  The
past-date check always runs: `new Date(booking.date)` is compared against
today's local midnight, and any comparison with an Invalid Date (NaN) is
false, so an unparseable date contributes no past-date error. -/
def validateBooking (e : Env) (b : Booking) : BookingValidationResult :=
  let errors : List String :=
    (if b.roomId = 0 ∨ b.roomId ≤ 0 then [roomIdError] else []) ++
    (if b.date = "" ∨ datePattern b.date = false then [dateFormatError] else []) ++
    (if b.time = "" ∨ timePattern b.time = false then [timeFormatError] else []) ++
    (match jsDateParse e.tzOffset b.date with
     | some v => if v < e.todayMidnight then [pastDateError] else []
     | none => [])
  { isValid := errors.isEmpty, errors := errors }

/-- Raw content stored under the bookings key: either a well-formed JSON
array of booking records or a string `JSON.parse` rejects. -/
inductive RawData where
  | good (bs : List Booking)
  | corrupt
deriving DecidableEq

/-- Raw storage cell: `localStorage.getItem` yields a string or `null`. -/
abbrev RawStorage := Option RawData

/-- The bookings physically present in the durable medium. -/
def storedList : RawStorage → List Booking
  | some (RawData.good bs) => bs
  | _ => []

/-- The `getBookings` function: absent key yields `[]`; a parse failure is
caught and yields `[]`; otherwise every record is re-validated with
`validateBooking` and invalid records are silently dropped. -/
def getBookings (e : Env) (raw : RawStorage) : List Booking :=
  match raw with
  | none => []
  | some RawData.corrupt => []
  | some (RawData.good bs) => bs.filter fun b => (validateBooking e b).isValid

/-- The `isSlotAvailable` function: returns false when any argument is
falsy (`!roomId || !date || !time`), otherwise true iff no booking in the
`getBookings` view matches the (roomId, date, time) triple exactly. -/
def isSlotAvailable (e : Env) (roomId : Int) (date time : String)
    (raw : RawStorage) : Bool :=
  if roomId = 0 ∨ date = "" ∨ time = "" then false
  else
    !(getBookings e raw).any fun b =>
      b.roomId == roomId && b.date == date && b.time == time

/-- Outcome of `saveBooking`: the resolved enriched booking, or one of the
three rejection reasons of the source (validation failure, slot conflict,
storage failure). -/
inductive SaveResult where
  | ok (b : Booking)
  | validationFailed (errors : List String)
  | slotConflict
  | storageError
deriving DecidableEq

/-- The object literal built inside `saveBooking`:
`{...booking, id: generateBookingId(), createdAt: new Date(), duration:
booking.duration || 60}` (a falsy duration, absent or zero, becomes 60). -/
def enrich (newId : String) (now : Int) (b : Booking) : Booking :=
  { b with
    id := some newId
    createdAt := some now
    duration := some (match b.duration with
      | none => 60
      | some v => if v = 0 then 60 else v) }

/-- The `saveBooking` function.  `newId` stands for the value produced by
`generateBookingId()` and `now` for `new Date()` at the stamping point;
`writeFails` models `localStorage.setItem` throwing (quota), in which case
the catch rejects with the storage error and the medium is untouched.
`initializeStorage` only touches the separate version key, so it does not
affect the booking collection.  On success the whole collection — the
re-validated view with the enriched booking appended — is written in a
single `setItem`. -/
def saveBooking (e : Env) (newId : String) (now : Int) (writeFails : Bool)
    (b : Booking) (raw : RawStorage) : SaveResult × RawStorage :=
  let validation := validateBooking e b
  if validation.isValid = false then
    (SaveResult.validationFailed validation.errors, raw)
  else if isSlotAvailable e b.roomId b.date b.time raw = false then
    (SaveResult.slotConflict, raw)
  else
    let bookings := getBookings e raw
    let newBooking : Booking := enrich newId now b
    if writeFails then (SaveResult.storageError, raw)
    else (SaveResult.ok newBooking,
          some (RawData.good (bookings ++ [newBooking])))

/-- Outcome of `deleteBooking`: resolution with `true`, or the not-found
rejection. -/
inductive DeleteResult where
  | ok
  | notFound
deriving DecidableEq

/-- The `deleteBooking` function: reads the `getBookings` view, filters out
the record with the given id, rejects with not-found when nothing was
removed, and otherwise persists the filtered collection. -/
def deleteBooking (e : Env) (bookingId : String) (raw : RawStorage) :
    DeleteResult × RawStorage :=
  let bookings := getBookings e raw
  let filtered := bookings.filter fun b => !(b.id == some bookingId)
  if filtered.length = bookings.length then (DeleteResult.notFound, raw)
  else (DeleteResult.ok, some (RawData.good filtered))

/-- The `clearAllBookings` function: removes the bookings key entirely. -/
def clearAllBookings (_raw : RawStorage) : RawStorage := none

/-- The (roomId, date, time) slot triple of a booking. -/
def triple (b : Booking) : Int × String × String := (b.roomId, b.date, b.time)

/-- The fixed enumerated slot set of the `TimeSlot` enum. -/
def timeSlots : List String :=
  ["09:00", "10:00", "11:00", "12:00", "14:00", "15:00", "16:00", "17:00"]

/-- One operation on the store through its write paths. -/
inductive Op where
  | save (newId : String) (now : Int) (writeFails : Bool) (b : Booking)
  | del (bookingId : String)
  | clear

/-- Effect of one operation on raw storage. -/
def stepOp (e : Env) (raw : RawStorage) : Op → RawStorage
  | Op.save newId now wf b => (saveBooking e newId now wf b raw).2
  | Op.del i => (deleteBooking e i raw).2
  | Op.clear => clearAllBookings raw

/-- Raw storage reached by a sequence of write operations from empty
storage. -/
def runOps (e : Env) (ops : List Op) : RawStorage :=
  ops.foldl (stepOp e) none

/-- States in which the physically stored bookings have pairwise distinct
slot triples and every stored record passes validation today. -/
def GoodState (e : Env) (raw : RawStorage) : Prop :=
  ((storedList raw).Pairwise fun a b => triple a ≠ triple b) ∧
  ∀ b ∈ storedList raw, (validateBooking e b).isValid = true

/-- A concrete environment: today is 2024-06-15 in the UTC timezone. -/
def envJun : Env := ⟨dayNumber 2024 6 15, 0⟩

/-- A structurally valid candidate booking for 2024-06-20 at 09:00. -/
def candA : Booking := ⟨none, 1, "2024-06-20", "09:00", none, none, none⟩

/-- A candidate whose date string fails the 4-2-2 pattern but is a valid
ECMAScript date-time string denoting a past instant. -/
def candT : Booking := ⟨none, 1, "2020-01-01T00:00", "09:00", none, none, none⟩

/-- A structurally well-shaped candidate whose time is outside the
enumerated slot set. -/
def candOutside : Booking :=
  ⟨none, 1, "2024-06-20", "13:37", none, none, none⟩

/-- A booking physically stored with id X whose date lies in the past
relative to `envJun`. -/
def bPast : Booking := ⟨some "X", 1, "2024-06-10", "09:00", some 60, none, none⟩

/-- A stored record that passes validation in `envJun`. -/
def bGood : Booking := ⟨some "G", 1, "2024-06-20", "09:00", some 60, none, none⟩

/-- A stored record with a malformed (empty) time field. -/
def bBad : Booking := ⟨some "M", 1, "2024-06-20", "", some 60, none, none⟩

/-- The enriched booking keeps the candidate's roomId. -/
theorem enrich_roomId (newId : String) (now : Int) (b : Booking) :
    (enrich newId now b).roomId = b.roomId := rfl

/-- The enriched booking keeps the candidate's date. -/
theorem enrich_date (newId : String) (now : Int) (b : Booking) :
    (enrich newId now b).date = b.date := rfl

/-- The enriched booking keeps the candidate's time. -/
theorem enrich_time (newId : String) (now : Int) (b : Booking) :
    (enrich newId now b).time = b.time := rfl

/-- Unfolding equation of `deleteBooking` with its let-bindings resolved. -/
theorem deleteBooking_eq (e : Env) (bid : String) (raw : RawStorage) :
    deleteBooking e bid raw =
      if ((getBookings e raw).filter fun b => !(b.id == some bid)).length =
          (getBookings e raw).length
      then (DeleteResult.notFound, raw)
      else (DeleteResult.ok,
        some (RawData.good ((getBookings e raw).filter
          fun b => !(b.id == some bid)))) := rfl

/-- Membership in a conditional singleton list. -/
theorem mem_ite_singleton {α : Type} {c : Prop} [Decidable c] {a x : α} :
    (a ∈ (if c then [x] else [])) ↔ c ∧ a = x := by
  split <;> simp_all

/-- A conditional singleton list is empty iff the condition fails. -/
theorem ite_singleton_eq_nil {α : Type} {c : Prop} [Decidable c] {x : α} :
    ((if c then [x] else ([] : List α)) = []) ↔ ¬ c := by
  split <;> simp_all

/-- Characterization of membership in the error list of `validateBooking`:
each of the four error strings occurs exactly under its own condition. -/
theorem mem_validateBooking_errors (e : Env) (b : Booking) (a : String) :
    a ∈ (validateBooking e b).errors ↔
      ((b.roomId = 0 ∨ b.roomId ≤ 0) ∧ a = roomIdError) ∨
      ((b.date = "" ∨ datePattern b.date = false) ∧ a = dateFormatError) ∨
      ((b.time = "" ∨ timePattern b.time = false) ∧ a = timeFormatError) ∨
      ((∃ v, jsDateParse e.tzOffset b.date = some v ∧ v < e.todayMidnight) ∧
        a = pastDateError) := by
  unfold validateBooking
  cases hp : jsDateParse e.tzOffset b.date with
  | none => simp [List.mem_append, mem_ite_singleton]
  | some v => simp [List.mem_append, mem_ite_singleton, and_comm]

/-- `validateBooking` reports validity iff all four checks pass. -/
theorem validateBooking_isValid_iff (e : Env) (b : Booking) :
    (validateBooking e b).isValid = true ↔
      (¬ (b.roomId = 0 ∨ b.roomId ≤ 0)) ∧
      (¬ (b.date = "" ∨ datePattern b.date = false)) ∧
      (¬ (b.time = "" ∨ timePattern b.time = false)) ∧
      (∀ v, jsDateParse e.tzOffset b.date = some v → ¬ v < e.todayMidnight) := by
  unfold validateBooking
  cases hp : jsDateParse e.tzOffset b.date with
  | none =>
      simp [List.isEmpty_iff, List.append_eq_nil, ite_singleton_eq_nil]
  | some v =>
      simp [List.isEmpty_iff, List.append_eq_nil, ite_singleton_eq_nil]

/-- `validateBooking` reads only the roomId, date and time fields. -/
theorem validateBooking_congr (e : Env) (b c : Booking)
    (hr : b.roomId = c.roomId) (hd : b.date = c.date) (ht : b.time = c.time) :
    validateBooking e b = validateBooking e c := by
  unfold validateBooking
  rw [hr, hd, ht]

/-- The `getBookings` view of a well-formed collection is the validity
filter. -/
theorem getBookings_good (e : Env) (bs : List Booking) :
    getBookings e (some (RawData.good bs)) =
      bs.filter (fun b => (validateBooking e b).isValid) := rfl

/-- Membership in the `getBookings` view: physically stored and valid. -/
theorem mem_getBookings (e : Env) (raw : RawStorage) (a : Booking) :
    a ∈ getBookings e raw ↔
      a ∈ storedList raw ∧ (validateBooking e a).isValid = true := by
  cases raw with
  | none => simp [getBookings, storedList]
  | some rd => cases rd <;> simp [getBookings, storedList, List.mem_filter]

/-- The `getBookings` view is a sublist of the physically stored
collection, so insertion order is preserved. -/
theorem getBookings_sublist (e : Env) (raw : RawStorage) :
    (getBookings e raw).Sublist (storedList raw) := by
  cases raw with
  | none => simp [getBookings, storedList]
  | some rd => cases rd <;> simp [getBookings, storedList, List.filter_sublist]

/-- Characterization of `isSlotAvailable`: true iff all three arguments are
non-falsy and no booking in the `getBookings` view matches the triple. -/
theorem isSlotAvailable_iff (e : Env) (r : Int) (d t : String)
    (raw : RawStorage) :
    isSlotAvailable e r d t raw = true ↔
      (r ≠ 0 ∧ d ≠ "" ∧ t ≠ "" ∧
        ∀ b ∈ getBookings e raw,
          ¬ (b.roomId = r ∧ b.date = d ∧ b.time = t)) := by
  unfold isSlotAvailable
  split
  · rename_i h
    simp only [Bool.false_eq_true, false_iff]
    rintro ⟨h1, h2, h3, -⟩
    rcases h with h | h | h <;> contradiction
  · rename_i h
    push_neg at h
    simp [List.any_eq_true, h.1, h.2.1, h.2.2, not_and]

/-- Empty storage is a good state. -/
theorem GoodState_none (e : Env) : GoodState e none := by
  constructor <;> simp [storedList]

/-- A successful `saveBooking` writes exactly the re-validated view with
the enriched booking appended; otherwise the medium is untouched. -/
theorem saveBooking_snd (e : Env) (newId : String) (now : Int) (wf : Bool)
    (b : Booking) (raw : RawStorage) :
    (saveBooking e newId now wf b raw).2 = raw ∨
      ((validateBooking e b).isValid = true ∧
        isSlotAvailable e b.roomId b.date b.time raw = true ∧ wf = false ∧
        (saveBooking e newId now wf b raw).2 =
          some (RawData.good (getBookings e raw ++ [enrich newId now b]))) := by
  unfold saveBooking
  rcases hv : (validateBooking e b).isValid with _ | _
  · simp [hv]
  · rcases ha : isSlotAvailable e b.roomId b.date b.time raw with _ | _
    · simp [hv, ha]
    · rcases hw : wf with _ | _
      · simp [hv, ha]
      · simp [hv, ha]

/-- One write operation preserves goodness of the stored collection. -/
theorem GoodState_stepOp (e : Env) (raw : RawStorage) (op : Op)
    (hg : GoodState e raw) : GoodState e (stepOp e raw op) := by
  rcases op with ⟨newId, now, wf, b⟩ | bid | _
  · rcases saveBooking_snd e newId now wf b raw with h | ⟨hv, ha, hw, h⟩
    · simpa [stepOp, h] using hg
    · rw [stepOp, h]
      have hsub : (getBookings e raw).Sublist (storedList raw) :=
        getBookings_sublist e raw
      have hview : ∀ a ∈ getBookings e raw,
          (validateBooking e a).isValid = true := by
        intro a haq
        exact ((mem_getBookings e raw a).mp haq).2
      have hmatch := (isSlotAvailable_iff e b.roomId b.date b.time raw).mp ha
      constructor
      · rw [storedList]
        rw [List.pairwise_append]
        refine ⟨hg.1.sublist hsub, by simp, ?_⟩
        intro a haq x hx
        simp only [List.mem_singleton] at hx
        subst hx
        have hne := hmatch.2.2.2 a haq
        intro htr
        apply hne
        rw [triple, triple] at htr
        simp only [Prod.mk.injEq, enrich_roomId, enrich_date, enrich_time]
          at htr
        exact htr
      · intro a haq
        rw [storedList, List.mem_append] at haq
        rcases haq with haq | haq
        · exact hview a haq
        · simp only [List.mem_singleton] at haq
          subst haq
          rw [validateBooking_congr e (enrich newId now b) b
            (enrich_roomId _ _ _) (enrich_date _ _ _) (enrich_time _ _ _)]
          exact hv
  · rw [stepOp, deleteBooking]
    split
    · exact hg
    · have hsub : ((getBookings e raw).filter
          fun b => !(b.id == some bid)).Sublist (storedList raw) :=
        ((getBookings e raw).filter_sublist).trans (getBookings_sublist e raw)
      constructor
      · exact hg.1.sublist hsub
      · intro a haq
        rw [storedList] at haq
        have : a ∈ getBookings e raw := (List.filter_sublist _).mem haq
        exact ((mem_getBookings e raw a).mp this).2
  · constructor <;> simp [stepOp, clearAllBookings, storedList]

/-- Every state reachable from empty storage through the write paths is a
good state. -/
theorem runOps_GoodState (e : Env) (ops : List Op) :
    GoodState e (runOps e ops) := by
  rw [runOps]
  have h : ∀ (raw : RawStorage), GoodState e raw →
      GoodState e (ops.foldl (stepOp e) raw) := by
    induction ops with
    | nil => intro raw hraw; exact hraw
    | cons op rest ih =>
        intro raw hraw
        exact ih _ (GoodState_stepOp e raw op hraw)
  exact h none (GoodState_none e)

/-- In a good state, saving a candidate whose triple is already stored
rejects with the slot conflict and leaves the medium untouched. -/
theorem saveBooking_conflict_of_mem (e : Env) (newId : String) (now : Int)
    (wf : Bool) (b : Booking) (raw : RawStorage) (hg : GoodState e raw)
    (a : Booking) (ha : a ∈ storedList raw) (ht : triple a = triple b) :
    saveBooking e newId now wf b raw = (SaveResult.slotConflict, raw) := by
  have hav : (validateBooking e a).isValid = true := hg.2 a ha
  rw [triple, triple, Prod.mk.injEq, Prod.mk.injEq] at ht
  have heq : validateBooking e b = validateBooking e a :=
    validateBooking_congr e b a ht.1.symm ht.2.1.symm ht.2.2.symm
  have hvb : (validateBooking e b).isValid = true := by rw [heq]; exact hav
  have hmem : a ∈ getBookings e raw := (mem_getBookings e raw a).mpr ⟨ha, hav⟩
  have hfalse : isSlotAvailable e b.roomId b.date b.time raw = false := by
    rcases hcase : isSlotAvailable e b.roomId b.date b.time raw with _ | _
    · rfl
    · exfalso
      have := (isSlotAvailable_iff e b.roomId b.date b.time raw).mp hcase
      exact this.2.2.2 a hmem ⟨ht.1, ht.2.1, ht.2.2⟩
  unfold saveBooking
  simp [hvb, hfalse]

/-- C1: Slot uniqueness invariant: in every state reachable from empty
storage through the write paths (save, delete, clear), the stored bookings
have pairwise distinct (roomId, date, time) triples, and any save whose
candidate triple already occurs among the stored bookings rejects with the
slot conflict and leaves storage unchanged. -/
theorem slot_uniqueness_invariant (e : Env) (ops : List Op) :
    ((storedList (runOps e ops)).Pairwise fun a b => triple a ≠ triple b) ∧
    ∀ (newId : String) (now : Int) (wf : Bool) (b : Booking),
      (∃ a ∈ storedList (runOps e ops), triple a = triple b) →
      saveBooking e newId now wf b (runOps e ops) =
        (SaveResult.slotConflict, runOps e ops) := by
  have hg := runOps_GoodState e ops
  refine ⟨hg.1, ?_⟩
  rintro newId now wf b ⟨a, ha, ht⟩
  exact saveBooking_conflict_of_mem e newId now wf b _ hg a ha ht

/-- C1 witness: after saving a concrete booking from empty storage, a
second save of the same triple rejects with the slot conflict and leaves
storage unchanged. -/
theorem slot_uniqueness_invariant_witness :
    saveBooking envJun "B" 1 false candA
        (runOps envJun [Op.save "A" 0 false candA]) =
      (SaveResult.slotConflict, runOps envJun [Op.save "A" 0 false candA]) :=
  (slot_uniqueness_invariant envJun [Op.save "A" 0 false candA]).2 "B" 1 false
    candA ⟨enrich "A" 0 candA, by decide, by decide⟩

/-- C3: Save atomicity on failure: whenever saveBooking does not resolve
with a booking — validation failure, slot conflict, or storage error — the
persisted collection is unchanged. -/
theorem save_atomic_on_failure (e : Env) (newId : String) (now : Int)
    (wf : Bool) (b : Booking) (raw : RawStorage)
    (h : ∀ nb : Booking,
      (saveBooking e newId now wf b raw).1 ≠ SaveResult.ok nb) :
    (saveBooking e newId now wf b raw).2 = raw := by
  rcases saveBooking_snd e newId now wf b raw with h2 | ⟨hv, ha, hw, h2⟩
  · exact h2
  · exfalso
    apply h (enrich newId now b)
    unfold saveBooking
    simp [hv, ha, hw]

/-- Inversion of a successful `saveBooking`: all checks passed, the result
is the enriched candidate, and the new collection is the re-validated view
with it appended. -/
theorem saveBooking_ok_inv (e : Env) (newId : String) (now : Int) (wf : Bool)
    (b nb : Booking) (raw raw' : RawStorage)
    (h : saveBooking e newId now wf b raw = (SaveResult.ok nb, raw')) :
    (validateBooking e b).isValid = true ∧
    isSlotAvailable e b.roomId b.date b.time raw = true ∧ wf = false ∧
    nb = enrich newId now b ∧
    raw' = some (RawData.good (getBookings e raw ++ [enrich newId now b])) := by
  unfold saveBooking at h
  rcases hv : (validateBooking e b).isValid with _ | _
  · simp [hv] at h
  · rcases ha : isSlotAvailable e b.roomId b.date b.time raw with _ | _
    · simp [hv, ha] at h
    · rcases hw : wf with _ | _
      · simp [hv, ha, hw, Prod.ext_iff] at h
        exact ⟨rfl, rfl, rfl, h.1.symm, h.2.symm⟩
      · simp [hv, ha, hw] at h

/-- C3 witness: a concrete failing save (empty candidate fields) leaves
empty storage unchanged. -/
theorem save_atomic_on_failure_witness :
    (saveBooking envJun "A" 0 false ⟨none, 0, "", "", none, none, none⟩
      none).2 = none := by
  apply save_atomic_on_failure
  intro nb hcon
  rw [show (saveBooking envJun "A" 0 false ⟨none, 0, "", "", none, none, none⟩
    none).1 = SaveResult.validationFailed
      [roomIdError, dateFormatError, timeFormatError] from by decide] at hcon
  exact SaveResult.noConfusion hcon

/-- C2 counterexample: with empty storage no stored booking matches any
triple, yet isSlotAvailable returns false for roomId 0 because of the
falsy-argument guard — refuting "true iff no stored booking matches the
triple exactly". -/
theorem availability_contract_cex :
    isSlotAvailable envJun 0 "2099-01-01" "09:00" none = false ∧
    getBookings envJun none = [] := by decide

/-- C2 amended: isSlotAvailable returns true iff roomId is non-zero, date
and time are non-empty, and no booking of the validated getBookings view
matches the triple exactly; an unreadable medium is caught inside
getBookings and yields the empty view, so availability then degrades to
true for non-falsy arguments (fails open, not closed); and immediately
after a successful save the saved triple reports unavailable. -/
theorem availability_contract_amended :
    (∀ (e : Env) (r : Int) (d t : String) (raw : RawStorage),
      isSlotAvailable e r d t raw = true ↔
        (r ≠ 0 ∧ d ≠ "" ∧ t ≠ "" ∧
          ∀ b ∈ getBookings e raw,
            ¬ (b.roomId = r ∧ b.date = d ∧ b.time = t))) ∧
    (∀ e : Env, getBookings e (some RawData.corrupt) = []) ∧
    (∀ (e : Env) (newId : String) (now : Int) (b nb : Booking)
        (raw raw' : RawStorage),
      saveBooking e newId now false b raw = (SaveResult.ok nb, raw') →
      isSlotAvailable e b.roomId b.date b.time raw' = false) := by
  refine ⟨isSlotAvailable_iff, fun e => rfl, ?_⟩
  intro e newId now b nb raw raw' h
  obtain ⟨hv, -, -, -, hraw'⟩ :=
    saveBooking_ok_inv e newId now false b nb raw raw' h
  have hmem : enrich newId now b ∈ getBookings e raw' := by
    rw [hraw', getBookings_good, List.mem_filter]
    refine ⟨List.mem_append_right _ (List.mem_singleton_self _), ?_⟩
    rw [validateBooking_congr e (enrich newId now b) b rfl rfl rfl]
    exact hv
  rcases hcase : isSlotAvailable e b.roomId b.date b.time raw' with _ | _
  · rfl
  · exfalso
    have := (isSlotAvailable_iff e b.roomId b.date b.time raw').mp hcase
    exact this.2.2.2 _ hmem ⟨rfl, rfl, rfl⟩

/-- C2 witness: after a concrete successful save, the saved triple reports
unavailable. -/
theorem availability_contract_amended_witness :
    isSlotAvailable envJun candA.roomId candA.date candA.time
      (some (RawData.good [enrich "A" 0 candA])) = false :=
  availability_contract_amended.2.2 envJun "A" 0 candA (enrich "A" 0 candA)
    none (some (RawData.good [enrich "A" 0 candA])) (by decide)

/-- C4: Save success postcondition and round-trip: a structurally valid,
non-conflicting candidate is accepted; the result carries the generated id,
the creation timestamp and the defaulted duration, agrees with the
candidate on every other field, and is retrieved by the subsequent
getBookings view of the written collection. -/
theorem save_success_roundtrip (e : Env) (newId : String) (now : Int)
    (b : Booking) (raw : RawStorage)
    (hv : (validateBooking e b).isValid = true)
    (ha : isSlotAvailable e b.roomId b.date b.time raw = true) :
    ∃ nb raw',
      saveBooking e newId now false b raw = (SaveResult.ok nb, raw') ∧
      nb.roomId = b.roomId ∧ nb.date = b.date ∧ nb.time = b.time ∧
      nb.bookedBy = b.bookedBy ∧ nb.id = some newId ∧
      nb.createdAt = some now ∧
      nb.duration = some (match b.duration with
        | none => 60
        | some v => if v = 0 then 60 else v) ∧
      nb ∈ getBookings e raw' := by
  refine ⟨enrich newId now b,
    some (RawData.good (getBookings e raw ++ [enrich newId now b])),
    ?_, rfl, rfl, rfl, rfl, rfl, rfl, rfl, ?_⟩
  · unfold saveBooking
    simp [hv, ha]
  · rw [getBookings_good, List.mem_filter]
    refine ⟨List.mem_append_right _ (List.mem_singleton_self _), ?_⟩
    rw [validateBooking_congr e (enrich newId now b) b rfl rfl rfl]
    exact hv

/-- C4 witness: a concrete valid, non-conflicting save on empty storage. -/
theorem save_success_roundtrip_witness :
    ∃ nb raw',
      saveBooking envJun "A" 0 false candA none = (SaveResult.ok nb, raw') ∧
      nb.roomId = candA.roomId ∧ nb.date = candA.date ∧
      nb.time = candA.time ∧ nb.bookedBy = candA.bookedBy ∧
      nb.id = some "A" ∧ nb.createdAt = some 0 ∧
      nb.duration = some (match candA.duration with
        | none => 60
        | some v => if v = 0 then 60 else v) ∧
      nb ∈ getBookings envJun raw' :=
  save_success_roundtrip envJun "A" 0 candA none (by decide) (by decide)

/-- C5: validateBooking reference definition: the room error occurs iff the
room id is zero or negative (a missing id is the falsy 0), the date and
time format errors occur iff the fixed digit patterns fail (an empty string
fails them), the past-date error occurs iff the date parses to an instant
strictly before today's local midnight, all errors are collected without
short-circuiting in that fixed order, and the concrete candidate with room
0 and empty date and time yields exactly the three format errors and no
past-date error. -/
theorem validateBooking_reference (e : Env) (b : Booking) :
    (roomIdError ∈ (validateBooking e b).errors ↔ b.roomId ≤ 0) ∧
    (dateFormatError ∈ (validateBooking e b).errors ↔
      datePattern b.date = false) ∧
    (timeFormatError ∈ (validateBooking e b).errors ↔
      timePattern b.time = false) ∧
    (pastDateError ∈ (validateBooking e b).errors ↔
      ∃ v, jsDateParse e.tzOffset b.date = some v ∧ v < e.todayMidnight) ∧
    validateBooking e ⟨none, 0, "", "", none, none, none⟩ =
      ⟨false, [roomIdError, dateFormatError, timeFormatError]⟩ := by
  refine ⟨?_, ?_, ?_, ?_, ?_⟩
  · rw [mem_validateBooking_errors]
    simp [show roomIdError ≠ dateFormatError from by decide,
      show roomIdError ≠ timeFormatError from by decide,
      show roomIdError ≠ pastDateError from by decide]
    omega
  · rw [mem_validateBooking_errors]
    simp [show dateFormatError ≠ roomIdError from by decide,
      show dateFormatError ≠ timeFormatError from by decide,
      show dateFormatError ≠ pastDateError from by decide]
    intro h
    rw [h]
    rfl
  · rw [mem_validateBooking_errors]
    simp [show timeFormatError ≠ roomIdError from by decide,
      show timeFormatError ≠ dateFormatError from by decide,
      show timeFormatError ≠ pastDateError from by decide]
    intro h
    rw [h]
    rfl
  · rw [mem_validateBooking_errors]
    simp [show pastDateError ≠ roomIdError from by decide,
      show pastDateError ≠ dateFormatError from by decide,
      show pastDateError ≠ timeFormatError from by decide]
  · rfl

/-- C6 counterexample: the date string 2020-01-01T00:00 fails the 4-2-2
digit pattern, yet the candidate carrying it receives a past-date error in
addition to the format error — the malformed string does reach the temporal
comparison. -/
theorem format_before_temporal_cex :
    datePattern "2020-01-01T00:00" = false ∧
    dateFormatError ∈ (validateBooking envJun candT).errors ∧
    pastDateError ∈ (validateBooking envJun candT).errors := by decide

/-- C6 amended: a candidate whose date fails the 4-2-2 pattern always gets
the date-format error, and additionally gets a past-date error exactly when
the malformed string still parses as a date denoting an instant before
today's local midnight; a string the date parser rejects (NaN) never yields
a past-date error. -/
theorem format_before_temporal_amended (e : Env) (b : Booking)
    (h : datePattern b.date = false) :
    dateFormatError ∈ (validateBooking e b).errors ∧
    (pastDateError ∈ (validateBooking e b).errors ↔
      ∃ v, jsDateParse e.tzOffset b.date = some v ∧ v < e.todayMidnight) := by
  constructor
  · rw [mem_validateBooking_errors]
    exact Or.inr (Or.inl ⟨Or.inr h, rfl⟩)
  · rw [mem_validateBooking_errors]
    simp [show pastDateError ≠ roomIdError from by decide,
      show pastDateError ≠ dateFormatError from by decide,
      show pastDateError ≠ timeFormatError from by decide]

/-- C6 witness: a concrete candidate with an unparseable malformed date
gets the format error and no past-date error. -/
theorem format_before_temporal_amended_witness :
    dateFormatError ∈
      (validateBooking envJun ⟨none, 1, "soon", "09:00", none, none,
        none⟩).errors ∧
    (pastDateError ∈
      (validateBooking envJun ⟨none, 1, "soon", "09:00", none, none,
        none⟩).errors ↔
      ∃ v, jsDateParse envJun.tzOffset "soon" = some v ∧
        v < envJun.todayMidnight) :=
  format_before_temporal_amended envJun
    ⟨none, 1, "soon", "09:00", none, none, none⟩ (by decide)

/-- C7 counterexample: save accepts and stores a booking whose time 13:37
is not a member of the enumerated slot set — the closed set is not enforced
at the validation boundary. -/
theorem closed_slot_set_cex :
    (saveBooking envJun "X" 0 false candOutside none).1 =
      SaveResult.ok (enrich "X" 0 candOutside) ∧
    (enrich "X" 0 candOutside).time = "13:37" ∧
    "13:37" ∉ timeSlots ∧
    enrich "X" 0 candOutside ∈
      getBookings envJun (saveBooking envJun "X" 0 false candOutside
        none).2 := by decide

/-- C7 amended: the write path guarantees only that the time of every
accepted booking is a non-empty match of the two-digit colon two-digit
pattern, not membership of the enumerated slot set; every member of the
enumerated slot set does satisfy that pattern. -/
theorem closed_slot_set_amended :
    (∀ (e : Env) (newId : String) (now : Int) (wf : Bool) (b nb : Booking)
        (raw raw' : RawStorage),
      saveBooking e newId now wf b raw = (SaveResult.ok nb, raw') →
      nb.time ≠ "" ∧ timePattern nb.time = true) ∧
    (∀ t ∈ timeSlots, timePattern t = true) := by
  constructor
  · intro e newId now wf b nb raw raw' h
    obtain ⟨hv, -, -, hnb, -⟩ :=
      saveBooking_ok_inv e newId now wf b nb raw raw' h
    rw [validateBooking_isValid_iff] at hv
    obtain ⟨-, -, ht, -⟩ := hv
    push_neg at ht
    subst hnb
    rw [enrich_time]
    exact ⟨ht.1, by simpa using ht.2⟩
  · decide

/-- C7 witness: the concretely saved out-of-set time still matches the
pattern the boundary actually enforces. -/
theorem closed_slot_set_amended_witness :
    (enrich "X" 0 candOutside).time ≠ "" ∧
    timePattern (enrich "X" 0 candOutside).time = true :=
  closed_slot_set_amended.1 envJun "X" 0 false candOutside
    (enrich "X" 0 candOutside) none
    (some (RawData.good [enrich "X" 0 candOutside])) (by decide)

/-- C8 counterexample: a record with id X is physically stored, yet delete
of X reports not-found because the record fails re-validation (its date has
passed) and is invisible to the filtered view the deletion reads. -/
theorem delete_semantics_cex :
    bPast ∈ storedList (some (RawData.good [bPast])) ∧
    bPast.id = some "X" ∧
    deleteBooking envJun "X" (some (RawData.good [bPast])) =
      (DeleteResult.notFound, some (RawData.good [bPast])) := by decide

/-- C8 amended: delete reports not-found iff no record of the validated
getBookings view carries the id, leaving raw storage unchanged in that
case; and the save-then-delete scenario holds: after a successful save,
deleting the generated id succeeds, the resulting view carries no record
with that id, and a second delete of the same id reports not-found. -/
theorem delete_semantics_amended :
    (∀ (e : Env) (bid : String) (raw : RawStorage),
      ((deleteBooking e bid raw).1 = DeleteResult.notFound ↔
        ∀ b ∈ getBookings e raw, b.id ≠ some bid) ∧
      ((deleteBooking e bid raw).1 = DeleteResult.notFound →
        (deleteBooking e bid raw).2 = raw)) ∧
    (∀ (e : Env) (newId : String) (now : Int) (b nb : Booking)
        (raw raw' : RawStorage),
      saveBooking e newId now false b raw = (SaveResult.ok nb, raw') →
      (deleteBooking e newId raw').1 = DeleteResult.ok ∧
      (∀ a ∈ getBookings e (deleteBooking e newId raw').2,
        a.id ≠ some newId) ∧
      (deleteBooking e newId (deleteBooking e newId raw').2).1 =
        DeleteResult.notFound) := by
  have hpred : ∀ (bid : String) (a : Booking),
      (!(a.id == some bid)) = true ↔ a.id ≠ some bid := by
    intro bid a
    simp
  constructor
  · intro e bid raw
    constructor
    · rw [deleteBooking_eq]
      split
      · rename_i h
        constructor
        · intro _ b hb
          rw [← hpred bid b]
          exact List.filter_length_eq_length.mp h b hb
        · intro _
          rfl
      · rename_i h
        constructor
        · intro hcon
          exact absurd hcon (by simp)
        · intro hall
          exfalso
          apply h
          apply List.filter_length_eq_length.mpr
          intro b hb
          rw [hpred bid b]
          exact hall b hb
    · rw [deleteBooking_eq]
      split
      · intro _
        rfl
      · intro hcon
        exact absurd hcon (by simp)
  · intro e newId now b nb raw raw' h
    obtain ⟨hv, -, -, -, hraw'⟩ :=
      saveBooking_ok_inv e newId now false b nb raw raw' h
    have hval_enrich :
        (validateBooking e (enrich newId now b)).isValid = true := by
      rw [validateBooking_congr e (enrich newId now b) b rfl rfl rfl]
      exact hv
    have hview' : getBookings e raw' =
        getBookings e raw ++ [enrich newId now b] := by
      rw [hraw', getBookings_good, List.filter_append]
      congr 1
      · apply List.filter_eq_self.mpr
        intro a haq
        exact ((mem_getBookings e raw a).mp haq).2
      · simp [hval_enrich]
    have hpenrich : (!((enrich newId now b).id == some newId)) = false := by
      simp [enrich]
    have hlenlt : (((getBookings e raw').filter
        fun a => !(a.id == some newId)).length ≠
        (getBookings e raw').length) := by
      have h1 := List.length_filter_le
        (fun a : Booking => !(a.id == some newId)) (getBookings e raw)
      rw [hview', List.filter_append]
      simp [hpenrich]
      omega
    have hdel1 : deleteBooking e newId raw' =
        (DeleteResult.ok, some (RawData.good ((getBookings e raw').filter
          fun a => !(a.id == some newId)))) := by
      rw [deleteBooking_eq, if_neg hlenlt]
    have hfiltval : ∀ a ∈ (getBookings e raw').filter
        (fun a => !(a.id == some newId)),
        (validateBooking e a).isValid = true := by
      intro a haq
      have : a ∈ getBookings e raw' := (List.filter_sublist _).mem haq
      exact ((mem_getBookings e raw' a).mp this).2
    have hview'' : getBookings e (some (RawData.good
        ((getBookings e raw').filter fun a => !(a.id == some newId)))) =
        (getBookings e raw').filter fun a => !(a.id == some newId) := by
      rw [getBookings_good]
      exact List.filter_eq_self.mpr hfiltval
    refine ⟨by rw [hdel1], ?_, ?_⟩
    · intro a haq
      rw [hdel1] at haq
      rw [hview''] at haq
      exact (hpred newId a).mp (List.mem_filter.mp haq).2
    · have hidem : (((getBookings e raw').filter
          fun a => !(a.id == some newId)).filter
          fun a => !(a.id == some newId)) =
          ((getBookings e raw').filter fun a => !(a.id == some newId)) :=
        List.filter_eq_self.mpr fun a haq => (List.mem_filter.mp haq).2
      rw [hdel1]
      rw [deleteBooking_eq, hview'', hidem, if_pos rfl]

/-- C8 witness: the concrete save-then-delete-twice scenario. -/
theorem delete_semantics_amended_witness :
    (deleteBooking envJun "A"
      (some (RawData.good [enrich "A" 0 candA]))).1 = DeleteResult.ok ∧
    (∀ a ∈ getBookings envJun (deleteBooking envJun "A"
        (some (RawData.good [enrich "A" 0 candA]))).2,
      a.id ≠ some "A") ∧
    (deleteBooking envJun "A" (deleteBooking envJun "A"
      (some (RawData.good [enrich "A" 0 candA]))).2).1 =
      DeleteResult.notFound :=
  delete_semantics_amended.2 envJun "A" 0 candA (enrich "A" 0 candA) none
    (some (RawData.good [enrich "A" 0 candA])) (by decide)

/-- C9: Defensive list filtering: the getBookings view preserves the
persisted insertion order (it is a sublist of the stored collection), a
stored record appears in it iff it passes validateBooking, a corrupted
collection degrades to the empty view instead of failing the whole read,
and the concrete one-good-one-malformed collection yields a view of
length one. -/
theorem list_filtering (e : Env) (bs : List Booking) :
    (getBookings e (some (RawData.good bs))).Sublist bs ∧
    (∀ b ∈ bs,
      (b ∈ getBookings e (some (RawData.good bs)) ↔
        (validateBooking e b).isValid = true)) ∧
    getBookings e (some RawData.corrupt) = [] ∧
    getBookings e none = [] ∧
    getBookings envJun (some (RawData.good [bGood, bBad])) = [bGood] := by
  refine ⟨getBookings_sublist e _, ?_, rfl, rfl, by decide⟩
  intro b hb
  rw [getBookings_good, List.mem_filter]
  simp [hb]

/-- C9 witness: membership of the concrete well-formed record in the
filtered view is equivalent to its validity. -/
theorem list_filtering_witness :
    bGood ∈ getBookings envJun (some (RawData.good [bGood, bBad])) ↔
      (validateBooking envJun bGood).isValid = true :=
  (list_filtering envJun [bGood, bBad]).2.1 bGood (by decide)

/-- C10: Past bookings vanish from the query surface: a stored booking
whose parsed date lies at least one full day before today's UTC midnight
(for dates in the 4-2-2 format this is exactly a calendar date strictly
earlier than the current day; the timezone offset is under a day) is
dropped from the getBookings view, and when every stored booking matching a
triple is past in that sense, isSlotAvailable reports the slot free even
though the records still reside in the durable medium. -/
theorem past_bookings_vanish (e : Env) :
    (∀ (bs : List Booking) (b : Booking) (v : Int),
      b ∈ bs → jsDateParse e.tzOffset b.date = some v →
      v + 1440 ≤ 1440 * e.todayDay → e.tzOffset < 1440 →
      b ∉ getBookings e (some (RawData.good bs))) ∧
    (∀ (bs : List Booking) (r : Int) (d t : String),
      e.tzOffset < 1440 → r ≠ 0 → d ≠ "" → t ≠ "" →
      (∀ a ∈ bs, a.roomId = r → a.date = d → a.time = t →
        ∃ v, jsDateParse e.tzOffset a.date = some v ∧
          v + 1440 ≤ 1440 * e.todayDay) →
      isSlotAvailable e r d t (some (RawData.good bs)) = true) := by
  have hpast : ∀ (b : Booking) (v : Int),
      jsDateParse e.tzOffset b.date = some v →
      v + 1440 ≤ 1440 * e.todayDay → e.tzOffset < 1440 →
      (validateBooking e b).isValid = false := by
    intro b v hp hle hoff
    rcases hval : (validateBooking e b).isValid with _ | _
    · rfl
    · exfalso
      rw [validateBooking_isValid_iff] at hval
      apply hval.2.2.2 v hp
      rw [Env.todayMidnight]
      omega
  constructor
  · intro bs b v hb hp hle hoff hmem
    have hval := ((mem_getBookings e _ b).mp hmem).2
    rw [hpast b v hp hle hoff] at hval
    exact Bool.false_ne_true hval
  · intro bs r d t hoff hr hd ht hall
    rw [isSlotAvailable_iff]
    refine ⟨hr, hd, ht, ?_⟩
    rintro a hmem ⟨h1, h2, h3⟩
    have hval := ((mem_getBookings e _ a).mp hmem).2
    have hstored : a ∈ storedList (some (RawData.good bs)) :=
      ((mem_getBookings e _ a).mp hmem).1
    obtain ⟨v, hp, hle⟩ := hall a hstored h1 h2 h3
    rw [hpast a v hp hle hoff] at hval
    exact Bool.false_ne_true hval

/-- C10 witness: the concrete past booking is invisible to the view and its
slot reports available again. -/
theorem past_bookings_vanish_witness :
    bPast ∉ getBookings envJun (some (RawData.good [bPast])) ∧
    isSlotAvailable envJun 1 "2024-06-10" "09:00"
      (some (RawData.good [bPast])) = true :=
  ⟨(past_bookings_vanish envJun).1 [bPast] bPast
      (1440 * dayNumber 2024 6 10) (by decide) (by decide) (by decide)
      (by decide),
    (past_bookings_vanish envJun).2 [bPast] 1 "2024-06-10" "09:00"
      (by decide) (by decide) (by decide) (by decide)
      (by
        intro a ha h1 h2 h3
        rw [List.mem_singleton] at ha
        subst ha
        exact ⟨1440 * dayNumber 2024 6 10, by decide, by decide⟩)⟩

end WorkSphere
